import Mathlib

/-!
Verification of the container-fleet orchestration engine of the tsuru docker
provisioner.  The provisioner implementation itself is not part of the
source tree (only its test suite `provision/docker/provisioner_test.go` is
present), so the operations below are shallow embeddings modelled from the
specification (`spec.md`), with the behavior pinned down by the assertions
of the test suite where the specification leaves room.
-/

namespace Tsuru

/-- Modelled from the spec: the closed enumeration of container lifecycle
statuses (spec section 3, Container Record: created, building, starting,
started, error, stopped, asleep). -/
inductive Status where
  | created
  | building
  | starting
  | started
  | error
  | stopped
  | asleep
deriving DecidableEq, Repr, Fintype

/-- Modelled from the spec: a container record of the Container Record
Store (spec section 3).  `expectedStatus` is the last status explicitly set
by the pipeline, tracked alongside the observed `status` (spec section
4.4). -/
structure Container where
  id : String
  name : String
  appName : String
  processName : String
  hostAddr : String
  hostPort : String
  status : Status
  expectedStatus : Status
deriving DecidableEq, Repr

/-- The routable address of a container (host:port). -/
def Container.address (c : Container) : String :=
  c.hostAddr ++ ":" ++ c.hostPort

/-- Reference to a unit as supplied by a status report: container id, an
optional runtime name used as fallback lookup, and the caller-declared app
name. -/
structure UnitRef where
  id : String
  name : String
  appName : String
deriving DecidableEq, Repr

/-- Errors of `setUnitStatus`. -/
inductive SetErr where
  | unitNotFound (id : String)
  | wrongApp
deriving DecidableEq, Repr

/-- Modelled from the spec: `SetUnitStatus` looks up the record by ID, or
by name if ID lookup fails (spec section 4.4). -/
def findUnitContainer (cs : List Container) (u : UnitRef) : Option Container :=
  match cs.find? (fun c => c.id == u.id) with
  | some c => some c
  | none => if u.name == "" then none else cs.find? (fun c => c.name == u.name)

/-- Modelled from the spec: the status transition table of `SetUnitStatus`
(spec section 4.4), applied in the listed order: (1) unsolicited
transitions while `building` are ignored, (2) `stopped` reported on an
`asleep` container is converted to `asleep`, (3) expected/reported
divergence (`started`/`stopped` or `stopped`/`started`) forces `error`,
(4) otherwise the new status is accepted as-is. -/
def transition (cur exp rep : Status) : Status :=
  if cur = .building then cur
  else
    let rep2 := if cur = .asleep ∧ rep = .stopped then Status.asleep else rep
    if (exp = .started ∧ rep2 = .stopped) ∨ (exp = .stopped ∧ rep2 = .started) then .error
    else rep2

/-- Replace the status of every record with the given id. -/
def updateStatusById (cs : List Container) (i : String) (s : Status) : List Container :=
  cs.map (fun c => if c.id == i then { c with status := s } else c)

/-- Result of `setUnitStatus`: the new record store and an optional
error. -/
structure SetResult where
  state : List Container
  err : Option SetErr
deriving DecidableEq, Repr

/-- Modelled from the spec: `SetUnitStatus` (spec section 4.4).  Looks up
the record (by id, falling back to name), fails with `UnitNotFoundError`
when neither resolves, fails with a `wrong app name` error when the
caller-provided app name does not match the record, and otherwise stores
the status computed by the transition table, leaving the expected status
unchanged. -/
def setUnitStatus (cs : List Container) (u : UnitRef) (rep : Status) : SetResult :=
  match findUnitContainer cs u with
  | none => ⟨cs, some (.unitNotFound u.id)⟩
  | some c =>
    if u.appName ≠ "" ∧ c.appName ≠ u.appName then ⟨cs, some .wrongApp⟩
    else ⟨updateStatusById cs c.id (transition c.status c.expectedStatus rep), none⟩

theorem updateStatusById_cons_pos (a : Container) (l : List Container) (i : String) (s : Status)
    (ha : (a.id == i) = true) :
    updateStatusById (a :: l) i s = { a with status := s } :: updateStatusById l i s := by
  have ha2 : a.id = i := by simpa using ha
  simp [updateStatusById, ha2]

theorem updateStatusById_cons_neg (a : Container) (l : List Container) (i : String) (s : Status)
    (ha : (a.id == i) = false) :
    updateStatusById (a :: l) i s = a :: updateStatusById l i s := by
  have ha2 : ¬ a.id = i := by simpa using ha
  simp [updateStatusById, ha2]

theorem find_updateStatusById (cs : List Container) (i : String) (s : Status) (c : Container)
    (h : cs.find? (fun x => x.id == i) = some c) :
    (updateStatusById cs i s).find? (fun x => x.id == i) = some { c with status := s } := by
  induction cs with
  | nil => simp [List.find?] at h
  | cons a l ih =>
    by_cases ha : (a.id == i) = true
    · simp only [List.find?_cons, ha] at h
      have hca : c = a := by injection h with h2; exact h2.symm
      subst hca
      rw [updateStatusById_cons_pos c l i s ha]
      have ha3 : (fun x : Container => x.id == i) { c with status := s } = true := ha
      exact List.find?_cons_of_pos _ ha3
    · have hb : (a.id == i) = false := by
        cases hx : (a.id == i) with
        | true => exact absurd hx ha
        | false => rfl
      simp only [List.find?_cons, hb] at h
      rw [updateStatusById_cons_neg a l i s hb]
      simp only [List.find?_cons, hb]
      exact ih h

theorem find_id_of_find (cs : List Container) (i : String) (c : Container)
    (h : cs.find? (fun x => x.id == i) = some c) : c.id = i := by
  have := List.find?_some h
  simpa using this

theorem transition_asleep_stopped (exp : Status) :
    transition .asleep exp .stopped = .asleep := by
  revert exp
  decide

theorem transition_self (s : Status) : transition s s s = s := by
  revert s
  decide

theorem transition_diverge (cur exp rep : Status) (hb : cur ≠ .building)
    (hd : (exp = .started ∧ rep = .stopped ∧ cur ≠ .asleep) ∨
          (exp = .stopped ∧ rep = .started)) :
    transition cur exp rep = .error := by
  revert hb hd
  revert cur exp rep
  decide

theorem setUnitStatus_found (cs : List Container) (u : UnitRef) (c : Container) (rep : Status)
    (hfind : cs.find? (fun x => x.id == u.id) = some c)
    (happ : u.appName = "" ∨ c.appName = u.appName) :
    setUnitStatus cs u rep =
      ⟨updateStatusById cs c.id (transition c.status c.expectedStatus rep), none⟩ := by
  have hguard : ¬ (u.appName ≠ "" ∧ c.appName ≠ u.appName) := by
    rcases happ with h | h
    · exact fun hc => hc.1 h
    · exact fun hc => hc.2 h
  simp only [setUnitStatus, findUnitContainer, hfind]
  rw [if_neg hguard]

/-- C8: for every container record whose current status is `asleep`, a
`SetUnitStatus` report of `stopped` leaves the stored status `asleep` (the
incoming `stopped` is converted to `asleep`), and the call succeeds
without error. -/
theorem setUnitStatus_asleep_sticky (cs : List Container) (u : UnitRef) (c : Container)
    (hfind : cs.find? (fun x => x.id == u.id) = some c)
    (happ : u.appName = "" ∨ c.appName = u.appName)
    (hasleep : c.status = .asleep) :
    (setUnitStatus cs u .stopped).err = none ∧
    (setUnitStatus cs u .stopped).state.find? (fun x => x.id == c.id) =
      some { c with status := .asleep } := by
  have hid : c.id = u.id := find_id_of_find cs u.id c hfind
  have hfind2 : cs.find? (fun x => x.id == c.id) = some c := by
    rw [hid]
    exact hfind
  rw [setUnitStatus_found cs u c .stopped hfind happ]
  refine ⟨rfl, ?_⟩
  have ht : transition c.status c.expectedStatus .stopped = .asleep := by
    rw [hasleep]
    exact transition_asleep_stopped c.expectedStatus
  rw [ht]
  exact find_updateStatusById cs c.id .asleep c hfind2

def exC8 : Container :=
  ⟨"c-sleep", "sleepy", "someapp", "web", "h1", "80", .asleep, .asleep⟩

/-- Witness for C8 at a concrete asleep container. -/
theorem setUnitStatus_asleep_sticky_wit :
    (setUnitStatus [exC8] ⟨"c-sleep", "", "someapp"⟩ .stopped).err = none ∧
    (setUnitStatus [exC8] ⟨"c-sleep", "", "someapp"⟩ .stopped).state.find?
      (fun x => x.id == exC8.id) = some { exC8 with status := .asleep } :=
  setUnitStatus_asleep_sticky [exC8] ⟨"c-sleep", "", "someapp"⟩ exC8
    (by decide) (Or.inr rfl) rfl

/-- C9: `SetUnitStatus` is idempotent: if a record's stored and expected
status are already `s`, reporting `s` again succeeds and leaves the record
unchanged, with no transition to `error`. -/
theorem setUnitStatus_idempotent (cs : List Container) (u : UnitRef) (c : Container) (s : Status)
    (hfind : cs.find? (fun x => x.id == u.id) = some c)
    (happ : u.appName = "" ∨ c.appName = u.appName)
    (hcur : c.status = s) (hexp : c.expectedStatus = s) :
    (setUnitStatus cs u s).err = none ∧
    (setUnitStatus cs u s).state.find? (fun x => x.id == c.id) = some c := by
  have hid : c.id = u.id := find_id_of_find cs u.id c hfind
  have hfind2 : cs.find? (fun x => x.id == c.id) = some c := by
    rw [hid]
    exact hfind
  rw [setUnitStatus_found cs u c s hfind happ]
  refine ⟨rfl, ?_⟩
  have ht : transition c.status c.expectedStatus s = s := by
    rw [hcur, hexp]
    exact transition_self s
  have hkeep : ({ c with status := s } : Container) = c := by
    cases c
    simp only at hcur
    rw [hcur]
  rw [ht, ← hkeep]
  exact find_updateStatusById cs c.id s c hfind2

def exC9 : Container :=
  ⟨"c-stop", "stopper", "someapp", "web", "h1", "80", .stopped, .stopped⟩

/-- Witness for C9 at a concrete stopped container. -/
theorem setUnitStatus_idempotent_wit :
    (setUnitStatus [exC9] ⟨"c-stop", "", "someapp"⟩ .stopped).err = none ∧
    (setUnitStatus [exC9] ⟨"c-stop", "", "someapp"⟩ .stopped).state.find?
      (fun x => x.id == exC9.id) = some exC9 :=
  setUnitStatus_idempotent [exC9] ⟨"c-stop", "", "someapp"⟩ exC9 .stopped
    (by decide) (Or.inr rfl) rfl rfl

/-- C3 (amended): a report diverging from the expected status (`started`
expected but `stopped` reported, or `stopped` expected but `started`
reported) stores status `error` and leaves the expected status untouched,
except when the record is currently `building` (the report is ignored) or
when the report is `stopped` and the record is currently `asleep` (the
report is converted to `asleep`). -/
theorem setUnitStatus_divergence_error (cs : List Container) (u : UnitRef) (c : Container)
    (rep : Status)
    (hfind : cs.find? (fun x => x.id == u.id) = some c)
    (happ : u.appName = "" ∨ c.appName = u.appName)
    (hb : c.status ≠ .building)
    (hd : (c.expectedStatus = .started ∧ rep = .stopped ∧ c.status ≠ .asleep) ∨
          (c.expectedStatus = .stopped ∧ rep = .started)) :
    (setUnitStatus cs u rep).err = none ∧
    (setUnitStatus cs u rep).state.find? (fun x => x.id == c.id) =
      some { c with status := .error } := by
  have hid : c.id = u.id := find_id_of_find cs u.id c hfind
  have hfind2 : cs.find? (fun x => x.id == c.id) = some c := by
    rw [hid]
    exact hfind
  rw [setUnitStatus_found cs u c rep hfind happ]
  refine ⟨rfl, ?_⟩
  rw [transition_diverge c.status c.expectedStatus rep hb hd]
  exact find_updateStatusById cs c.id .error c hfind2

/-- C3 counterexample: a record whose expected status is `started` but
whose current status is `building` does not store `error` on a `stopped`
report — the report is ignored and the record keeps status `building`, so
the claim as universally stated over all records with expected status
`started` is false. -/
theorem setUnitStatus_divergence_claim_cex :
    (setUnitStatus [⟨"c1", "n1", "app1", "web", "h1", "80", .building, .started⟩]
        ⟨"c1", "", "app1"⟩ .stopped).err = none ∧
    (setUnitStatus [⟨"c1", "n1", "app1", "web", "h1", "80", .building, .started⟩]
        ⟨"c1", "", "app1"⟩ .stopped).state.find? (fun x => x.id == "c1") =
      some ⟨"c1", "n1", "app1", "web", "h1", "80", .building, .started⟩ ∧
    Status.building ≠ Status.error := by
  refine ⟨rfl, rfl, by decide⟩

def exC3 : Container :=
  ⟨"c-run", "runner", "someapp", "web", "h1", "80", .started, .started⟩

/-- Witness for C3 at a concrete started container reported stopped. -/
theorem setUnitStatus_divergence_error_wit :
    (setUnitStatus [exC3] ⟨"c-run", "", "someapp"⟩ .stopped).err = none ∧
    (setUnitStatus [exC3] ⟨"c-run", "", "someapp"⟩ .stopped).state.find?
      (fun x => x.id == exC3.id) = some { exC3 with status := .error } :=
  setUnitStatus_divergence_error [exC3] ⟨"c-run", "", "someapp"⟩ exC3 .stopped
    (by decide) (Or.inr rfl) (by decide) (Or.inl ⟨rfl, rfl, by decide⟩)

/-- State of the record store together with the routing collaborator: the
persisted container records and the set of registered route addresses. -/
structure PState where
  containers : List Container
  routes : List String
deriving DecidableEq, Repr

/-- Errors of `removeUnits`. -/
inductive RemErr where
  | zeroUnits
  | invalidProcess (p : String)
  | tooMany (n : Nat) (p : String) (avail : Nat)
  | routeRemovalFailed (addr : String)
deriving DecidableEq, Repr

/-- The user-visible message of each `removeUnits` error. -/
def RemErr.message : RemErr → String
  | .zeroUnits => "cannot remove zero units"
  | .invalidProcess p =>
    "process error: no command declared in Procfile for process \"" ++ p ++ "\""
  | .tooMany n p avail =>
    "cannot remove " ++ toString n ++ " units from process \"" ++ p ++ "\", only " ++
      toString avail ++ " available"
  | .routeRemovalFailed addr =>
    "error removing routes, units weren\x27t removed: route removal failed for " ++ addr

/-- Modelled from the spec: the records eligible for removal for the
(app, process) pair; an empty process name matches records of any process
(spec section 4.4). -/
def removalCandidates (cs : List Container) (app p : String) : List Container :=
  cs.filter (fun c => c.appName == app && (p == "" || c.processName == p))

/-- Modelled from the spec: `RemoveUnits` (spec section 4.4), with the
route-failure behavior pinned by `TestProvisionerRemoveUnitsFailRemoveOldRoute`:
rejects a zero count, rejects a named process with no declared command
(`InvalidProcessError`), fails when the requested count exceeds the
available records, and otherwise unregisters the selected containers'
routes first — if any route removal fails the whole removal is aborted
(routes already unregistered are restored, no record is removed) and a
routing error is returned; on success the selected records and their
routes are removed.  The router collaborator is represented by the set of
addresses whose route removal fails (`fails`). -/
def removeUnits (st : PState) (fails : List String) (app : String) (n : Nat) (p : String)
    (declared : List String) : PState × Option RemErr :=
  if n = 0 then (st, some .zeroUnits)
  else if p ≠ "" ∧ p ∉ declared then (st, some (.invalidProcess p))
  else if (removalCandidates st.containers app p).length < n then
    (st, some (.tooMany n p (removalCandidates st.containers app p).length))
  else
    match ((removalCandidates st.containers app p).take n).find?
        (fun c => fails.contains c.address) with
    | some c => (st, some (.routeRemovalFailed c.address))
    | none =>
      ({ containers := st.containers.filter
            (fun c => !(((removalCandidates st.containers app p).take n).any
              (fun x => x.id == c.id))),
         routes := st.routes.filter
            (fun a => !(((removalCandidates st.containers app p).take n).any
              (fun x => x.address == a))) }, none)

/-- C1 (amended): when unregistering the route of one of the selected
containers fails, `RemoveUnits` returns a routing error and removes
nothing at all — the records and routes of every container, including the
ones processed before the failing one, remain intact (routes already
unregistered are restored). -/
theorem removeUnits_routeFailure_allOrNothing (st : PState) (fails : List String)
    (app : String) (n : Nat) (p : String) (declared : List String)
    (hn : n ≠ 0) (hp : p = "" ∨ p ∈ declared)
    (havail : n ≤ (removalCandidates st.containers app p).length)
    (hfail : ∃ c ∈ (removalCandidates st.containers app p).take n,
      fails.contains c.address = true) :
    (removeUnits st fails app n p declared).1 = st ∧
    ∃ a, (removeUnits st fails app n p declared).2 = some (.routeRemovalFailed a) := by
  have hguard : ¬ (p ≠ "" ∧ p ∉ declared) := by
    rcases hp with h | h
    · exact fun hc => hc.1 h
    · exact fun hc => hc.2 h
  have hnl : ¬ (removalCandidates st.containers app p).length < n := Nat.not_lt.mpr havail
  have hex : ∃ x ∈ (removalCandidates st.containers app p).take n,
      (fun c => fails.contains c.address) x = true := hfail
  have hsome : (((removalCandidates st.containers app p).take n).find?
      (fun c => fails.contains c.address)).isSome := List.find?_isSome.mpr hex
  obtain ⟨c, hc⟩ := Option.isSome_iff_exists.mp hsome
  unfold removeUnits
  rw [if_neg hn, if_neg hguard, if_neg hnl, hc]
  exact ⟨rfl, c.address, rfl⟩

def exC1a : Container := ⟨"1", "impius1", "impius", "web", "url0", "1", .started, .started⟩

def exC1b : Container := ⟨"2", "mirror1", "impius", "worker", "url0", "2", .started, .started⟩

def exC1c : Container := ⟨"3", "dedication1", "impius", "web", "url0", "3", .started, .started⟩

def exC1st : PState := ⟨[exC1a, exC1b, exC1c], ["url0:1", "url0:2", "url0:3"]⟩

/-- C1 counterexample: in the scenario of
`TestProvisionerRemoveUnitsFailRemoveOldRoute` — three records, remove 2
of process "web", route removal failing for the second selected container
("url0:3") — the record and the route of the first selected container
(id "1", processed before the failing one) are still present afterwards,
contradicting the claim that records and routes processed before the
failure are gone. -/
theorem removeUnits_routeFailure_claim_cex :
    (removeUnits exC1st ["url0:3"] "impius" 2 "web" ["web"]).2 =
      some (.routeRemovalFailed "url0:3") ∧
    exC1a ∈ (removeUnits exC1st ["url0:3"] "impius" 2 "web" ["web"]).1.containers ∧
    "url0:1" ∈ (removeUnits exC1st ["url0:3"] "impius" 2 "web" ["web"]).1.routes := by
  refine ⟨rfl, ?_, ?_⟩ <;> decide

/-- Witness for C1 at the concrete scenario of the counterexample. -/
theorem removeUnits_routeFailure_allOrNothing_wit :
    (removeUnits exC1st ["url0:3"] "impius" 2 "web" ["web"]).1 = exC1st ∧
    ∃ a, (removeUnits exC1st ["url0:3"] "impius" 2 "web" ["web"]).2 =
      some (.routeRemovalFailed a) :=
  removeUnits_routeFailure_allOrNothing exC1st ["url0:3"] "impius" 2 "web" ["web"]
    (by decide) (Or.inr (by decide)) (by decide) ⟨exC1c, by decide, by decide⟩

/-- C6: `RemoveUnits` fails with `cannot remove n units from process "p",
only m available` (removing nothing) when n exceeds the m available
records of the pair; a non-empty process name with no declared command
fails with an `InvalidProcessError` (removing nothing); and an empty
process name matches records of any process of the app. -/
theorem removeUnits_validation :
    (∀ st fails app n p declared, (p = "" ∨ p ∈ declared) →
      (removalCandidates st.containers app p).length < n →
      removeUnits st fails app n p declared =
        (st, some (.tooMany n p (removalCandidates st.containers app p).length))) ∧
    (∀ st fails app n p declared, p ≠ "" → p ∉ declared → n ≠ 0 →
      removeUnits st fails app n p declared = (st, some (.invalidProcess p))) ∧
    (∀ cs app, removalCandidates cs app "" = cs.filter (fun c => c.appName == app)) ∧
    (∀ n p avail, (RemErr.tooMany n p avail).message =
      "cannot remove " ++ toString n ++ " units from process \"" ++ p ++ "\", only " ++
        toString avail ++ " available") := by
  refine ⟨?tooMany, ?invalid, ?anyProc, ?msg⟩
  case tooMany =>
    intro st fails app n p declared hp hlt
    have hn : ¬ n = 0 := by
      intro h0
      rw [h0] at hlt
      exact Nat.not_lt_zero _ hlt
    have hguard : ¬ (p ≠ "" ∧ p ∉ declared) := by
      rcases hp with h | h
      · exact fun hc => hc.1 h
      · exact fun hc => hc.2 h
    unfold removeUnits
    rw [if_neg hn, if_neg hguard, if_pos hlt]
  case invalid =>
    intro st fails app n p declared hne hnd hn
    unfold removeUnits
    rw [if_neg hn, if_pos ⟨hne, hnd⟩]
  case anyProc =>
    intro cs app
    unfold removalCandidates
    apply List.filter_congr
    intro a _
    simp
  case msg =>
    intro n p avail
    rfl

def exC6st : PState :=
  ⟨[⟨"1", "impius1", "impius", "web", "url0", "1", .started, .started⟩,
    ⟨"2", "mirror1", "impius", "web", "url0", "2", .started, .started⟩,
    ⟨"3", "dedication1", "impius", "web", "url0", "3", .started, .started⟩], []⟩

/-- Witness for C6: removing 4 units from a process with only 3 records
fails with the `only 3 available` error, and an undeclared process fails
with `InvalidProcessError`. -/
theorem removeUnits_validation_wit :
    removeUnits exC6st [] "impius" 4 "web" ["web"] =
      (exC6st, some (.tooMany 4 "web" 3)) ∧
    removeUnits exC6st [] "impius" 1 "worker" ["web"] =
      (exC6st, some (.invalidProcess "worker")) := by
  constructor
  · exact removeUnits_validation.1 exC6st [] "impius" 4 "web" ["web"]
      (Or.inr (by decide)) (by decide)
  · exact removeUnits_validation.2.1 exC6st [] "impius" 1 "worker" ["web"]
      (by decide) (by decide) (by decide)

/-- Errors of `addUnits`. -/
inductive AddErr where
  | noDeploys
  | zeroUnits
  | invalidProcess (p : String)
  | nodeError (msg : String)
deriving DecidableEq, Repr

/-- The user-visible message of each `addUnits` error; a runtime failure
is wrapped with the docker-node context. -/
def AddErr.message : AddErr → String
  | .noDeploys => "New units can only be added after the first deployment"
  | .zeroUnits => "Cannot add 0 units"
  | .invalidProcess p =>
    "process error: no command declared in Procfile for process \"" ++ p ++ "\""
  | .nodeError msg => "error in docker node: " ++ msg

/-- The records created by a fully successful add-units batch: one
`starting` record per requested unit. -/
def newBatchContainers (app p host : String) (n : Nat) : List Container :=
  (List.range n).map (fun i =>
    ⟨app ++ "-" ++ p ++ "-" ++ toString i, app ++ "-" ++ p ++ "-" ++ toString i,
      app, p, host, "0", .starting, .starting⟩)

/-- Modelled from the spec: the add-units batch pipeline (spec section
4.4), with the rollback behavior pinned by
`TestProvisionerAddUnitsWithErrorDoesntLeaveLostUnits` and
`TestProvisionerAddUnitsWithHostPartialRollback`: units can only be added
after the first deployment, a zero count and an undeclared process are
rejected, and the batch creates and starts one container per requested
unit — if creating or starting any of them fails, every record created by
the batch is removed again (the store is left as it was) and the first
failure is returned wrapped with the docker-node context; on success the
new records and their routes are appended.  The runtime collaborator is
represented by `outcomes`, giving for each requested unit index the error
of its create/start call, or `none` when it succeeds. -/
def addUnits (st : PState) (deploys : Nat) (app p host : String) (declared : List String)
    (outcomes : Nat → Option String) (n : Nat) : PState × Option AddErr :=
  if deploys = 0 then (st, some .noDeploys)
  else if n = 0 then (st, some .zeroUnits)
  else if p ∉ declared then (st, some (.invalidProcess p))
  else
    match ((List.range n).filterMap outcomes).head? with
    | some msg => (st, some (.nodeError msg))
    | none =>
      ({ containers := st.containers ++ newBatchContainers app p host n,
         routes := st.routes ++ (newBatchContainers app p host n).map (·.address) }, none)

/-- C2 (amended): when creating or starting any requested container of an
add-units batch fails, the operation returns the first failure wrapped
with the docker-node context and the whole batch is rolled back: every
record created by the batch — including the ones that had already
succeeded — is removed, and only the records that existed before the
batch remain. -/
theorem addUnits_failure_batchRollback (st : PState) (deploys : Nat) (app p host : String)
    (declared : List String) (outcomes : Nat → Option String) (n : Nat) (msg : String)
    (hdep : deploys ≠ 0) (hn : n ≠ 0) (hp : p ∈ declared)
    (hfail : ((List.range n).filterMap outcomes).head? = some msg) :
    addUnits st deploys app p host declared outcomes n = (st, some (.nodeError msg)) ∧
    (AddErr.nodeError msg).message = "error in docker node: " ++ msg := by
  refine ⟨?_, rfl⟩
  unfold addUnits
  rw [if_neg hdep, if_neg hn, if_neg (by exact fun hc => hc hp), hfail]

def exC2pre : Container :=
  ⟨"c-89320", "c-89320", "myapp", "", "h0", "0", .started, .started⟩

def exC2fail : Nat → Option String :=
  fun i => if i = 1 then some "API error (500)" else none

/-- C2 counterexample: in the scenario of
`TestProvisionerAddUnitsWithErrorDoesntLeaveLostUnits` — one pre-existing
record, a batch of 3 whose second create fails — after the call only the
pre-existing record is in the store: the containers of the batch that had
succeeded do NOT remain, contradicting the claim's `no global rollback of
the batch`. -/
theorem addUnits_failure_partial_claim_cex :
    addUnits ⟨[exC2pre], []⟩ 1 "myapp" "web" "h0" ["web"] exC2fail 3 =
      (⟨[exC2pre], []⟩, some (.nodeError "API error (500)")) ∧
    (addUnits ⟨[exC2pre], []⟩ 1 "myapp" "web" "h0" ["web"] exC2fail 3).1.containers =
      [exC2pre] := by
  refine ⟨rfl, rfl⟩

/-- Witness for C2 at the concrete scenario of the counterexample. -/
theorem addUnits_failure_batchRollback_wit :
    addUnits ⟨[exC2pre], []⟩ 1 "myapp" "web" "h0" ["web"] exC2fail 3 =
      (⟨[exC2pre], []⟩, some (.nodeError "API error (500)")) ∧
    (AddErr.nodeError "API error (500)").message =
      "error in docker node: " ++ "API error (500)" :=
  addUnits_failure_batchRollback ⟨[exC2pre], []⟩ 1 "myapp" "web" "h0" ["web"] exC2fail 3
    "API error (500)" (by decide) (by decide) (by decide) rfl

/-- C10: adding zero units fails with `Cannot add 0 units` and removing
zero units fails with `cannot remove zero units`; in both cases the record
store and the routes are returned unchanged. -/
theorem zeroUnits_guards :
    (∀ st deploys app p host declared outcomes, deploys ≠ 0 →
      addUnits st deploys app p host declared outcomes 0 = (st, some .zeroUnits)) ∧
    (∀ st fails app p declared,
      removeUnits st fails app 0 p declared = (st, some .zeroUnits)) ∧
    AddErr.zeroUnits.message = "Cannot add 0 units" ∧
    RemErr.zeroUnits.message = "cannot remove zero units" := by
  refine ⟨?_, ?_, rfl, rfl⟩
  · intro st deploys app p host declared outcomes hdep
    unfold addUnits
    rw [if_neg hdep, if_pos rfl]
  · intro st fails app p declared
    unfold removeUnits
    rw [if_pos rfl]

/-- Witness for C10 at a concrete app with one deployment. -/
theorem zeroUnits_guards_wit :
    addUnits ⟨[], []⟩ 1 "myapp" "web" "h0" ["web"] (fun _ => none) 0 =
      (⟨[], []⟩, some .zeroUnits) ∧
    removeUnits ⟨[], []⟩ [] "myapp" 0 "web" ["web"] = (⟨[], []⟩, some .zeroUnits) :=
  ⟨(zeroUnits_guards.1 ⟨[], []⟩ 1 "myapp" "web" "h0" ["web"] (fun _ => none) (by decide)),
    zeroUnits_guards.2.1 ⟨[], []⟩ [] "myapp" "web" ["web"]⟩

/-- Modelled from the spec: the Action Limiter mode (spec section 4.2):
per-host independent slot pools, or one global pool shared by all
hosts. -/
inductive LimiterMode where
  | perHost
  | allHosts
deriving DecidableEq, Repr

/-- Modelled from the spec: the Action Limiter (spec section 4.2).  `held`
is the multiset of currently held slots, tagged by host. -/
structure Limiter where
  mode : LimiterMode
  held : List String
deriving DecidableEq, Repr

/-- A fresh limiter with no held slot. -/
def Limiter.start (mode : LimiterMode) : Limiter := ⟨mode, []⟩

/-- `Len(host)`: the currently held slots for the host (per-host mode) or
overall (global mode). -/
def Limiter.len (L : Limiter) (host : String) : Nat :=
  match L.mode with
  | .perHost => (L.held.filter (fun h => h == host)).length
  | .allHosts => L.held.length

/-- Acquire a slot for the host. -/
def Limiter.acquire (L : Limiter) (host : String) : Limiter :=
  { L with held := host :: L.held }

/-- Release one previously acquired slot for the host. -/
def Limiter.release (L : Limiter) (host : String) : Limiter :=
  { L with held := L.held.erase host }

/-- One runtime-mutating step of an operation: the host it targets and
whether its runtime RPC succeeds. -/
structure RtStep where
  host : String
  ok : Bool
deriving DecidableEq, Repr

/-- Modelled from the spec: running an operation's runtime-mutating steps
against the Action Limiter (spec section 4.2): every step acquires a slot
before its runtime RPC and releases it afterwards, including when the RPC
fails, in which case the operation stops and reports the failure. -/
def runSteps : Limiter → List RtStep → Limiter × Bool
  | L, [] => (L, true)
  | L, s :: rest =>
    if s.ok then runSteps ((L.acquire s.host).release s.host) rest
    else ((L.acquire s.host).release s.host, false)

/-- The limiter-guarded runtime steps of a deploy: a create and a start
call per unit, each of which can fail. -/
def deploySteps (units : List (String × Bool × Bool)) : List RtStep :=
  (units.map (fun u => [RtStep.mk u.1 u.2.1, RtStep.mk u.1 u.2.2])).flatten

/-- The limiter-guarded runtime steps of a destroy: a stop-and-remove call
per unit, each of which can fail. -/
def destroySteps (units : List (String × Bool)) : List RtStep :=
  units.map (fun u => RtStep.mk u.1 u.2)

theorem acquire_release (L : Limiter) (h : String) : (L.acquire h).release h = L := by
  cases L
  simp [Limiter.acquire, Limiter.release]

theorem runSteps_fst (steps : List RtStep) : ∀ L, (runSteps L steps).1 = L := by
  induction steps with
  | nil => intro L; rfl
  | cons s rest ih =>
    intro L
    unfold runSteps
    rw [acquire_release]
    by_cases hok : s.ok = true
    · rw [if_pos hok]
      exact ih L
    · rw [if_neg hok]

theorem len_start (mode : LimiterMode) (host : String) :
    (Limiter.start mode).len host = 0 := by
  cases mode <;> rfl

/-- C7: with the Action Limiter active in either per-host or global mode,
after any deploy or destroy operation — each a sequence of limiter-guarded
runtime steps, any of which may fail — every slot acquired from the
limiter has been released: `Len(host)` is 0 for every host, including
when the operation's internal steps failed. -/
theorem limiter_released_after_ops (mode : LimiterMode)
    (deployUnits : List (String × Bool × Bool)) (destroyUnits : List (String × Bool))
    (host : String) :
    ((runSteps (Limiter.start mode) (deploySteps deployUnits)).1).len host = 0 ∧
    ((runSteps (Limiter.start mode) (destroySteps destroyUnits)).1).len host = 0 := by
  rw [runSteps_fst (deploySteps deployUnits) (Limiter.start mode)]
  rw [runSteps_fst (destroySteps destroyUnits) (Limiter.start mode)]
  exact ⟨len_start mode host, len_start mode host⟩

/-- Number of containers placed on a host. -/
def hostCount (cs : List Container) (h : String) : Nat :=
  (cs.filter (fun c => c.hostAddr == h)).length

/-- The per-host container counts for a list of pool nodes. -/
def countsOn (hosts : List String) (cs : List Container) : List Nat :=
  hosts.map (fun h => hostCount cs h)

/-- Maximum of a list of counts (0 for the empty list). -/
def maxC : List Nat → Nat
  | [] => 0
  | x :: xs => Nat.max x (maxC xs)

/-- Minimum of a nonempty list of counts (0 for the empty list). -/
def minC : List Nat → Nat
  | [] => 0
  | [x] => x
  | x :: y :: xs => Nat.min x (minC (y :: xs))

/-- Modelled from the spec: the load gap of the pool, the difference
between the most-loaded and the least-loaded node (spec section 4.5). -/
def gapOf (hosts : List String) (cs : List Container) : Nat :=
  maxC (countsOn hosts cs) - minC (countsOn hosts cs)

/-- The flattened per-host unit counts after rebalancing `total` units
over `n` hosts: each host receives `total / n` units and the first
`total % n` hosts one extra. -/
def targetsOf (n total : Nat) : List Nat :=
  (List.range n).map (fun i => total / n + if i < total % n then 1 else 0)

/-- Move a container to a host. -/
def setHost (h : String) (c : Container) : Container := { c with hostAddr := h }

/-- Distribute the containers over the hosts, giving the i-th host the
i-th target count of containers. -/
def reassign : List String → List Nat → List Container → List Container
  | [], _, _ => []
  | _ :: _, [], _ => []
  | h :: hs, t :: ts, cs => (cs.take t).map (setHost h) ++ reassign hs ts (cs.drop t)

/-- The migration plan of a rebalance: every unit re-created so that the
per-host counts are the flattened targets. -/
def plannedMoves (hosts : List String) (cs : List Container) : List Container :=
  reassign hosts (targetsOf hosts.length cs.length) cs

/-- Result of `rebalanceNodes`: the container records after the call,
whether a rebalance was performed (or planned, in dry mode), the progress
log lines, and the number of units moved. -/
structure RebalanceResult where
  containers : List Container
  toRebalance : Bool
  logs : List String
  moved : Nat
deriving DecidableEq, Repr

/-- Modelled from the spec: `Rebalance` (spec section 4.5).  Skips with
`toRebalance = false` and no log output unless `force` is set or the load
gap is at least 2; in dry mode it only logs the planned moves
("Would move unit ...") without touching any record; otherwise it
re-creates every unit so that the per-host counts are flattened. -/
def rebalanceNodes (hosts : List String) (cs : List Container) (force dry : Bool) :
    RebalanceResult :=
  if force = false ∧ gapOf hosts cs < 2 then ⟨cs, false, [], 0⟩
  else if dry = true then
    ⟨cs, true, (plannedMoves hosts cs).map (fun c => "Would move unit " ++ c.id), 0⟩
  else
    ⟨plannedMoves hosts cs, true,
      (plannedMoves hosts cs).map (fun c => "Moved unit " ++ c.id), cs.length⟩

theorem maxC_le (l : List Nat) (b : Nat) (h : ∀ x ∈ l, x ≤ b) : maxC l ≤ b := by
  induction l with
  | nil => exact Nat.zero_le b
  | cons x xs ih =>
    have hx : x ≤ b := h x (List.mem_cons_self x xs)
    have hxs : maxC xs ≤ b := ih (fun y hy => h y (List.mem_cons_of_mem x hy))
    exact Nat.max_le.mpr ⟨hx, hxs⟩

theorem le_minC (l : List Nat) (b : Nat) (hne : l ≠ []) (h : ∀ x ∈ l, b ≤ x) : b ≤ minC l := by
  induction l with
  | nil => exact absurd rfl hne
  | cons x xs ih =>
    cases xs with
    | nil => exact h x (List.mem_cons_self x [])
    | cons y ys =>
      have hx : b ≤ x := h x (List.mem_cons_self x (y :: ys))
      have hxs : b ≤ minC (y :: ys) := by
        refine ih (by simp) ?_
        intro z hz
        exact h z (List.mem_cons_of_mem x hz)
      exact Nat.le_min.mpr ⟨hx, hxs⟩

theorem mem_targetsOf (n total x : Nat) (hx : x ∈ targetsOf n total) :
    total / n ≤ x ∧ x ≤ total / n + 1 := by
  unfold targetsOf at hx
  obtain ⟨i, _, hix⟩ := List.mem_map.mp hx
  by_cases hlt : i < total % n
  · rw [if_pos hlt] at hix
    omega
  · rw [if_neg hlt] at hix
    omega

theorem targetsOf_length (n total : Nat) : (targetsOf n total).length = n := by
  unfold targetsOf
  rw [List.length_map, List.length_range]

theorem sum_range_ite (q r : Nat) : ∀ n,
    ((List.range n).map (fun i => q + if i < r then 1 else 0)).sum = q * n + min r n := by
  intro n
  induction n with
  | zero => simp
  | succ m ih =>
    rw [List.range_succ, List.map_append, List.sum_append, ih]
    simp only [List.map_cons, List.map_nil, List.sum_cons, List.sum_nil]
    rw [Nat.mul_succ]
    by_cases hm : m < r
    · rw [if_pos hm]
      have h1 : min r m = m := Nat.min_eq_right (Nat.le_of_lt hm)
      have h2 : min r (m + 1) = m + 1 := Nat.min_eq_right hm
      omega
    · rw [if_neg hm]
      have hrm : r ≤ m := Nat.le_of_not_lt hm
      have h1 : min r m = r := Nat.min_eq_left hrm
      have h2 : min r (m + 1) = r := Nat.min_eq_left (Nat.le_succ_of_le hrm)
      omega

theorem sum_targetsOf (n total : Nat) (hn : n ≠ 0) : (targetsOf n total).sum = total := by
  unfold targetsOf
  rw [sum_range_ite (total / n) (total % n) n]
  have hpos : 0 < n := Nat.pos_of_ne_zero hn
  have hmod : total % n < n := Nat.mod_lt total hpos
  rw [Nat.min_eq_left (Nat.le_of_lt hmod)]
  have hdm := Nat.div_add_mod total n
  rw [Nat.mul_comm n (total / n)] at hdm
  omega

theorem hostCount_append (a b : List Container) (h : String) :
    hostCount (a ++ b) h = hostCount a h + hostCount b h := by
  unfold hostCount
  rw [List.filter_append, List.length_append]

theorem hostCount_map_setHost (cs : List Container) (h h2 : String) :
    hostCount (cs.map (setHost h)) h2 = if (h == h2) = true then cs.length else 0 := by
  unfold hostCount
  rw [List.filter_map (setHost h) cs]
  by_cases hh : (h == h2) = true
  · have hfun : ((fun c : Container => c.hostAddr == h2) ∘ setHost h) =
        (fun _ : Container => true) := by
      funext c
      exact hh
    rw [hfun, List.filter_true, List.length_map, if_pos hh]
  · have hfun : ((fun c : Container => c.hostAddr == h2) ∘ setHost h) =
        (fun _ : Container => false) := by
      funext c
      cases hx : (h == h2) with
      | true => exact absurd hx hh
      | false => exact hx
    rw [hfun, List.filter_false, if_neg hh]
    rfl

theorem hostCount_reassign_zero (h : String) : ∀ (hosts : List String) (ts : List Nat)
    (cs : List Container), h ∉ hosts → hostCount (reassign hosts ts cs) h = 0 := by
  intro hosts
  induction hosts with
  | nil =>
    intro ts cs _
    cases ts <;> rfl
  | cons hd tl ih =>
    intro ts cs hmem
    cases ts with
    | nil => rfl
    | cons t ts2 =>
      show hostCount ((cs.take t).map (setHost hd) ++ reassign tl ts2 (cs.drop t)) h = 0
      rw [hostCount_append, hostCount_map_setHost]
      have hne : ¬ (hd == h) = true := by
        intro hbeq
        exact hmem (by
          have : hd = h := by simpa using hbeq
          rw [← this]
          exact List.mem_cons_self hd tl)
      rw [if_neg hne, ih ts2 (cs.drop t) (fun hh => hmem (List.mem_cons_of_mem hd hh))]

theorem countsOn_reassign : ∀ (hosts : List String) (ts : List Nat) (cs : List Container),
    hosts.Nodup → hosts.length = ts.length → ts.sum = cs.length →
    countsOn hosts (reassign hosts ts cs) = ts := by
  intro hosts
  induction hosts with
  | nil =>
    intro ts cs _ hlen _
    cases ts with
    | nil => rfl
    | cons t ts2 => simp at hlen
  | cons hd tl ih =>
    intro ts cs hnd hlen hsum
    cases ts with
    | nil => simp at hlen
    | cons t ts2 =>
      have hndhd : hd ∉ tl := (List.nodup_cons.mp hnd).1
      have hndtl : tl.Nodup := (List.nodup_cons.mp hnd).2
      have hlen2 : tl.length = ts2.length := by simpa using hlen
      have hsum2 : t + ts2.sum = cs.length := by simpa using hsum
      have htake : (cs.take t).length = t := by
        rw [List.length_take]
        omega
      have hdrop : ts2.sum = (cs.drop t).length := by
        rw [List.length_drop t cs]
        omega
      have hR : reassign (hd :: tl) (t :: ts2) cs =
          (cs.take t).map (setHost hd) ++ reassign tl ts2 (cs.drop t) := rfl
      unfold countsOn
      rw [List.map_cons]
      congr 1
      · rw [hR, hostCount_append, hostCount_map_setHost]
        have hbeq : (hd == hd) = true := by simp
        rw [if_pos hbeq, htake,
          hostCount_reassign_zero hd tl ts2 (cs.drop t) hndhd]
        omega
      · have hcong : ∀ x ∈ tl, hostCount (reassign (hd :: tl) (t :: ts2) cs) x =
            hostCount (reassign tl ts2 (cs.drop t)) x := by
          intro x hx
          rw [hR, hostCount_append, hostCount_map_setHost]
          have hne : ¬ (hd == x) = true := by
            intro hbeq
            have : hd = x := by simpa using hbeq
            exact hndhd (this ▸ hx)
          rw [if_neg hne]
          omega
        rw [List.map_congr_left hcong]
        exact ih ts2 (cs.drop t) hndtl hlen2 hdrop

theorem gap_plannedMoves (hosts : List String) (cs : List Container)
    (hne : hosts ≠ []) (hnd : hosts.Nodup) :
    gapOf hosts (plannedMoves hosts cs) ≤ 1 := by
  have hn : hosts.length ≠ 0 := fun h => hne (List.length_eq_zero.mp h)
  have hcounts : countsOn hosts (plannedMoves hosts cs) =
      targetsOf hosts.length cs.length := by
    unfold plannedMoves
    exact countsOn_reassign hosts (targetsOf hosts.length cs.length) cs hnd
      (targetsOf_length hosts.length cs.length).symm
      (sum_targetsOf hosts.length cs.length hn)
  unfold gapOf
  rw [hcounts]
  have hmax : maxC (targetsOf hosts.length cs.length) ≤ cs.length / hosts.length + 1 := by
    apply maxC_le
    intro x hx
    exact (mem_targetsOf hosts.length cs.length x hx).2
  have hmin : cs.length / hosts.length ≤ minC (targetsOf hosts.length cs.length) := by
    apply le_minC
    · intro h0
      apply hn
      have hlt := targetsOf_length hosts.length cs.length
      rw [h0] at hlt
      simpa using hlt.symm
    · intro x hx
      exact (mem_targetsOf hosts.length cs.length x hx).1
  omega

/-- C4: with `force` unset, a load gap below 2 makes `Rebalance` a no-op
reporting that no rebalance is needed (`toRebalance = false`, no log
output); a gap of at least 2 makes the rebalance proceed and flatten the
gap (to at most 1); with `force` set, units are moved even when the
distribution is already balanced. -/
theorem rebalance_threshold_and_force (hosts : List String) (cs : List Container)
    (force dry : Bool) :
    (force = false → gapOf hosts cs < 2 →
      rebalanceNodes hosts cs force dry = ⟨cs, false, [], 0⟩) ∧
    (hosts ≠ [] → hosts.Nodup → dry = false → 2 ≤ gapOf hosts cs →
      (rebalanceNodes hosts cs force dry).toRebalance = true ∧
      gapOf hosts (rebalanceNodes hosts cs force dry).containers ≤ 1) ∧
    (force = true → dry = false →
      (rebalanceNodes hosts cs force dry).toRebalance = true ∧
      (rebalanceNodes hosts cs force dry).moved = cs.length) := by
  refine ⟨?_, ?_, ?_⟩
  · intro hf hlt
    unfold rebalanceNodes
    rw [if_pos ⟨hf, hlt⟩]
  · intro hne hnd hdry hgap
    have hcond : ¬ (force = false ∧ gapOf hosts cs < 2) := by
      intro hc
      exact Nat.lt_irrefl 2 (Nat.lt_of_le_of_lt hgap hc.2)
    have hdry2 : ¬ dry = true := by
      rw [hdry]
      exact Bool.false_ne_true
    unfold rebalanceNodes
    rw [if_neg hcond, if_neg hdry2]
    exact ⟨rfl, gap_plannedMoves hosts cs hne hnd⟩
  · intro hft hdry
    have hcond : ¬ (force = false ∧ gapOf hosts cs < 2) := by
      intro hc
      rw [hft] at hc
      exact absurd hc.1 (by decide)
    have hdry2 : ¬ dry = true := by
      rw [hdry]
      exact Bool.false_ne_true
    unfold rebalanceNodes
    rw [if_neg hcond, if_neg hdry2]
    exact ⟨rfl, rfl⟩

def exPoolConts : List Container :=
  [⟨"u1", "u1", "myapp", "web", "a", "1", .started, .started⟩,
   ⟨"u2", "u2", "myapp", "web", "a", "2", .started, .started⟩,
   ⟨"u3", "u3", "myapp", "web", "a", "3", .started, .started⟩,
   ⟨"u4", "u4", "myapp", "web", "a", "4", .started, .started⟩]

/-- Witness for C4: two pool nodes with all four units on the first node
(gap 4): the rebalance triggers and flattens the gap; a balanced pool
without force is a no-op. -/
theorem rebalance_threshold_and_force_wit :
    ((rebalanceNodes ["a", "b"] exPoolConts false false).toRebalance = true ∧
      gapOf ["a", "b"] (rebalanceNodes ["a", "b"] exPoolConts false false).containers ≤ 1) ∧
    rebalanceNodes ["a", "b"] [] false false = ⟨[], false, [], 0⟩ ∧
    ((rebalanceNodes ["a", "b"] exPoolConts true false).toRebalance = true ∧
      (rebalanceNodes ["a", "b"] exPoolConts true false).moved = exPoolConts.length) :=
  ⟨(rebalance_threshold_and_force ["a", "b"] exPoolConts false false).2.1
      (by decide) (by decide) rfl (by decide),
    (rebalance_threshold_and_force ["a", "b"] [] false false).1 rfl (by decide),
    (rebalance_threshold_and_force ["a", "b"] exPoolConts true false).2.2 rfl rfl⟩

/-- C5: a dry-run rebalance never changes the container records (and hence
no per-host count changes); it reports `toRebalance = true` exactly when a
plan exists (force, or gap at least 2), and in that case only logs the
planned moves as "Would move unit ..." lines. -/
theorem rebalance_dry_noop (hosts : List String) (cs : List Container) (force : Bool) :
    (rebalanceNodes hosts cs force true).containers = cs ∧
    (∀ h, hostCount (rebalanceNodes hosts cs force true).containers h = hostCount cs h) ∧
    ((rebalanceNodes hosts cs force true).toRebalance = true ↔
      (force = true ∨ 2 ≤ gapOf hosts cs)) ∧
    ((rebalanceNodes hosts cs force true).toRebalance = true →
      (rebalanceNodes hosts cs force true).logs =
        (plannedMoves hosts cs).map (fun c => "Would move unit " ++ c.id)) := by
  by_cases hc : (force = false ∧ gapOf hosts cs < 2)
  · unfold rebalanceNodes
    rw [if_pos hc]
    refine ⟨rfl, fun h => rfl, ?_, ?_⟩
    · constructor
      · intro hft
        exact absurd hft Bool.false_ne_true
      · intro hor
        rcases hor with hf | hg
        · rw [hf] at hc
          exact absurd hc.1 (by decide)
        · exact absurd hc.2 (Nat.not_lt.mpr hg)
    · intro hft
      exact absurd hft Bool.false_ne_true
  · unfold rebalanceNodes
    rw [if_neg hc, if_pos rfl]
    refine ⟨rfl, fun h => rfl, ?_, fun _ => rfl⟩
    constructor
    · intro _
      by_cases hf : force = true
      · exact Or.inl hf
      · right
        have hff : force = false := by
          cases force
          · rfl
          · exact absurd rfl hf
        by_cases hg : 2 ≤ gapOf hosts cs
        · exact hg
        · exact absurd ⟨hff, Nat.lt_of_not_le hg⟩ hc
    · intro _
      rfl

/-- Witness for C5: the dry-run on the four-units-on-one-node pool leaves
the records unchanged and logs the plan. -/
theorem rebalance_dry_noop_wit :
    (rebalanceNodes ["a", "b"] exPoolConts false true).containers = exPoolConts ∧
    (rebalanceNodes ["a", "b"] exPoolConts false true).logs =
      (plannedMoves ["a", "b"] exPoolConts).map (fun c => "Would move unit " ++ c.id) :=
  ⟨(rebalance_dry_noop ["a", "b"] exPoolConts false).1,
    (rebalance_dry_noop ["a", "b"] exPoolConts false).2.2.2
      ((rebalance_dry_noop ["a", "b"] exPoolConts false).2.2.1.mpr (Or.inr (by decide)))⟩

end Tsuru
